import Mathlib

/-!
Verification of the `acme-tls-alpn-01` crate against its specification.

The Rust sources are shallowly embedded: pure functions become Lean
functions, machine integers become `Nat` with explicit reduction
`% 2 ^ 32` where overflow matters, fallible code returns `Option` or an
explicit result type, and the stateful order state machine of
`src/order.rs` is embedded as explicit state passing over a record `St`
(resolver map, counters, event trace), with the HTTP transport and the
external crypto libraries (`ring` ECDSA signing, `rcgen` certificate
generation) supplied as an environment `Env` of injected responses.
Rust panics (`unwrap` / `expect`) are modelled as an explicit
`panicked` outcome.
-/

set_option maxRecDepth 10000

/-! ## UTF-8 encoding, decoding and validity

`str::from_utf8` in Rust accepts exactly well-formed UTF-8: no
surrogates, no overlong encodings, code points at most 0x10FFFF.  The
decoder below mirrors that definition byte for byte. -/

/-- Encode one unicode code point as UTF-8 bytes. -/
def utf8EncodeChar (c : Nat) : List Nat :=
  if c < 128 then [c]
  else if c < 2048 then [192 + c / 64, 128 + c % 64]
  else if c < 65536 then [224 + c / 4096, 128 + c / 64 % 64, 128 + c % 64]
  else [240 + c / 262144, 128 + c / 4096 % 64, 128 + c / 64 % 64, 128 + c % 64]

/-- UTF-8 bytes of a string. -/
def utf8Encode (s : String) : List Nat :=
  List.flatten ((s.data.map Char.toNat).map utf8EncodeChar)

/-- Continuation byte test (10xxxxxx). -/
def isCont (b : Nat) : Bool := 128 ≤ b && b ≤ 191

/-- Decode a UTF-8 byte sequence to its code points; `none` on any
ill-formed input (exactly the inputs on which Rust's `str::from_utf8`
returns `Err`). -/
def utf8DecodeCps : List Nat → Option (List Nat)
  | [] => some []
  | b :: rest =>
    if b < 128 then (utf8DecodeCps rest).map (fun cs => b :: cs)
    else if 194 ≤ b && b ≤ 223 then
      match rest with
      | c :: rest2 =>
        if isCont c then
          (utf8DecodeCps rest2).map (fun cs => ((b - 192) * 64 + (c - 128)) :: cs)
        else none
      | [] => none
    else if b == 224 then
      match rest with
      | c :: d :: rest2 =>
        if (160 ≤ c && c ≤ 191) && isCont d then
          (utf8DecodeCps rest2).map (fun cs => ((c - 128) * 64 + (d - 128)) :: cs)
        else none
      | _ => none
    else if (225 ≤ b && b ≤ 236) || (238 ≤ b && b ≤ 239) then
      match rest with
      | c :: d :: rest2 =>
        if isCont c && isCont d then
          (utf8DecodeCps rest2).map
            (fun cs => ((b - 224) * 4096 + (c - 128) * 64 + (d - 128)) :: cs)
        else none
      | _ => none
    else if b == 237 then
      match rest with
      | c :: d :: rest2 =>
        if (128 ≤ c && c ≤ 159) && isCont d then
          (utf8DecodeCps rest2).map
            (fun cs => (53248 + (c - 128) * 64 + (d - 128)) :: cs)
        else none
      | _ => none
    else if b == 240 then
      match rest with
      | c :: d :: e :: rest2 =>
        if (144 ≤ c && c ≤ 191) && (isCont d && isCont e) then
          (utf8DecodeCps rest2).map
            (fun cs => ((c - 128) * 4096 + (d - 128) * 64 + (e - 128)) :: cs)
        else none
      | _ => none
    else if 241 ≤ b && b ≤ 243 then
      match rest with
      | c :: d :: e :: rest2 =>
        if isCont c && (isCont d && isCont e) then
          (utf8DecodeCps rest2).map
            (fun cs =>
              ((b - 240) * 262144 + (c - 128) * 4096 + (d - 128) * 64 + (e - 128)) :: cs)
        else none
      | _ => none
    else if b == 244 then
      match rest with
      | c :: d :: e :: rest2 =>
        if (128 ≤ c && c ≤ 143) && (isCont d && isCont e) then
          (utf8DecodeCps rest2).map
            (fun cs => (1048576 + (c - 128) * 4096 + (d - 128) * 64 + (e - 128)) :: cs)
        else none
      | _ => none
    else none

/-- Model of Rust `str::from_utf8(..)` followed by `.to_string()`:
`some` of the decoded string when the bytes are well-formed UTF-8,
`none` when `from_utf8` would return `Err` (and an `unwrap` on it
would panic). -/
def rustFromUtf8 (bs : List Nat) : Option String :=
  (utf8DecodeCps bs).map (fun cps => String.mk (cps.map Char.ofNat))

/-! ## SHA-256 (as used through `ring::digest::digest(&SHA256, _)`)

Words are `Nat` reduced modulo `2 ^ 32`. -/

/-- Addition modulo 2^32. -/
def add32 (a b : Nat) : Nat := (a + b) % 4294967296

/-- Right rotation of a 32-bit word. -/
def rotr32 (n x : Nat) : Nat := (x / 2 ^ n + x % 2 ^ n * 2 ^ (32 - n)) % 4294967296

/-- Bitwise complement of a 32-bit word. -/
def not32 (x : Nat) : Nat := 4294967295 - x

/-- Big-endian bytes of `n`, `k` bytes wide. -/
def beBytes (k n : Nat) : List Nat :=
  (List.range k).map (fun i => n / 2 ^ (8 * (k - 1 - i)) % 256)

def sha256K : List Nat :=
  [1116352408, 1899447441, 3049323471, 3921009573, 961987163, 1508970993,
   2453635748, 2870763221, 3624381080, 310598401, 607225278, 1426881987,
   1925078388, 2162078206, 2614888103, 3248222580, 3835390401, 4022224774,
   264347078, 604807628, 770255983, 1249150122, 1555081692, 1996064986,
   2554220882, 2821834349, 2952996808, 3210313671, 3336571891, 3584528711,
   113926993, 338241895, 666307205, 773529912, 1294757372, 1396182291,
   1695183700, 1986661051, 2177026350, 2456956037, 2730485921, 2820302411,
   3259730800, 3345764771, 3516065817, 3600352804, 4094571909, 275423344,
   430227734, 506948616, 659060556, 883997877, 958139571, 1322822218,
   1537002063, 1747873779, 1955562222, 2024104815, 2227730452, 2361852424,
   2428436474, 2756734187, 3204031479, 3329325298]

/-- The eight working variables of the compression function. -/
structure Hash8 where
  a : Nat
  b : Nat
  c : Nat
  d : Nat
  e : Nat
  f : Nat
  g : Nat
  h : Nat

def sha256H0 : Hash8 :=
  { a := 1779033703, b := 3144134277, c := 1013904242, d := 2773480762,
    e := 1359893119, f := 2600822924, g := 528734635, h := 1541459225 }

/-- The 16 big-endian message words of a 64-byte block. -/
def blockWords (block : List Nat) : List Nat :=
  (List.range 16).map (fun i =>
    block.getD (4 * i) 0 * 16777216 + block.getD (4 * i + 1) 0 * 65536 +
      block.getD (4 * i + 2) 0 * 256 + block.getD (4 * i + 3) 0)

/-- Next word of the message schedule, appended at index `w.length`. -/
def scheduleNext (w : List Nat) : Nat :=
  let w15 := w.getD (w.length - 15) 0
  let w2 := w.getD (w.length - 2) 0
  let s0 := Nat.xor (Nat.xor (rotr32 7 w15) (rotr32 18 w15)) (w15 / 2 ^ 3)
  let s1 := Nat.xor (Nat.xor (rotr32 17 w2) (rotr32 19 w2)) (w2 / 2 ^ 10)
  add32 (add32 (w.getD (w.length - 16) 0) s0) (add32 (w.getD (w.length - 7) 0) s1)

/-- Extend 16 message words to the 64-entry schedule. -/
def sha256Schedule (w16 : List Nat) : List Nat :=
  (List.range 48).foldl (fun w _ => w ++ [scheduleNext w]) w16

/-- One round of the compression function. -/
def sha256Round (st : Hash8) (k w : Nat) : Hash8 :=
  let s1 := Nat.xor (Nat.xor (rotr32 6 st.e) (rotr32 11 st.e)) (rotr32 25 st.e)
  let ch := Nat.xor (Nat.land st.e st.f) (Nat.land (not32 st.e) st.g)
  let t1 := add32 (add32 st.h s1) (add32 ch (add32 k w))
  let s0 := Nat.xor (Nat.xor (rotr32 2 st.a) (rotr32 13 st.a)) (rotr32 22 st.a)
  let maj := Nat.xor (Nat.xor (Nat.land st.a st.b) (Nat.land st.a st.c)) (Nat.land st.b st.c)
  let t2 := add32 s0 maj
  { a := add32 t1 t2, b := st.a, c := st.b, d := st.c,
    e := add32 st.d t1, f := st.e, g := st.f, h := st.g }

/-- Compress one block into the running hash. -/
def sha256Compress (h0 : Hash8) (ws : List Nat) : Hash8 :=
  let fin := (sha256K.zip ws).foldl (fun st kw => sha256Round st kw.1 kw.2) h0
  { a := add32 h0.a fin.a, b := add32 h0.b fin.b, c := add32 h0.c fin.c,
    d := add32 h0.d fin.d, e := add32 h0.e fin.e, f := add32 h0.f fin.f,
    g := add32 h0.g fin.g, h := add32 h0.h fin.h }

/-- SHA-256 digest (32 bytes) of a byte sequence. -/
def sha256 (msg : List Nat) : List Nat :=
  let len := msg.length
  let total := ((len + 8) / 64 + 1) * 64
  let padded := msg ++ 128 :: (List.replicate (total - len - 9) 0 ++ beBytes 8 (8 * len))
  let blocks := (List.range (total / 64)).map (fun i => (padded.drop (64 * i)).take 64)
  let fin := blocks.foldl (fun h block => sha256Compress h (sha256Schedule (blockWords block))) sha256H0
  List.flatten ([fin.a, fin.b, fin.c, fin.d, fin.e, fin.f, fin.g, fin.h].map (beBytes 4))

/-- Sanity check against the FIPS 180 test vector for "abc". -/
theorem sha256_abc :
    sha256 (utf8Encode "abc") =
      [186, 120, 22, 191, 143, 1, 207, 234, 65, 65, 64, 222, 93, 174, 34, 35,
       176, 3, 97, 163, 150, 23, 122, 156, 180, 16, 255, 97, 242, 0, 21, 173] := by
  decide

/-- Sanity check: digest of the empty message. -/
theorem sha256_empty :
    sha256 [] =
      [227, 176, 196, 66, 152, 252, 28, 20, 154, 251, 244, 200, 153, 111, 185, 36,
       39, 174, 65, 228, 100, 155, 147, 76, 164, 149, 153, 27, 120, 82, 184, 85] := by
  decide

/-! ## base64url without padding (`BASE64_URL_SAFE_NO_PAD`) -/

def b64Alphabet : List Char :=
  "ABCDEFGHIJKLMNOPQRSTUVWXYZabcdefghijklmnopqrstuvwxyz0123456789-_".data

def b64c (n : Nat) : Char := b64Alphabet.getD n 'A'

def base64Chars : List Nat → List Char
  | a :: b :: c :: rest =>
    let v := a * 65536 + b * 256 + c
    b64c (v / 262144) :: b64c (v / 4096 % 64) :: b64c (v / 64 % 64) :: b64c (v % 64) ::
      base64Chars rest
  | [a, b] =>
    let v := a * 65536 + b * 256
    [b64c (v / 262144), b64c (v / 4096 % 64), b64c (v / 64 % 64)]
  | [a] =>
    let v := a * 65536
    [b64c (v / 262144), b64c (v / 4096 % 64)]
  | [] => []

/-- base64url encoding without padding, as a string. -/
def b64url (bs : List Nat) : String := String.mk (base64Chars bs)

/-- Sanity check: base64url of "abc". -/
theorem b64url_abc : b64url (utf8Encode "abc") = "YWJj" := by decide

/-! ## JSON string serialization (serde_json)

Only what the embedded structs need: object syntax with fields in
declaration order, and serde_json's string escaping (`"` and `\`
escaped, control characters as shortcuts or `\u00xx`). -/

def hexDigitLower (n : Nat) : Char := "0123456789abcdef".data.getD n '0'

def jsonEscapeChar (c : Char) : List Char :=
  if c = '"' then ['\\', '"']
  else if c = '\\' then ['\\', '\\']
  else if 32 ≤ c.toNat then [c]
  else if c.toNat = 8 then ['\\', 'b']
  else if c.toNat = 9 then ['\\', 't']
  else if c.toNat = 10 then ['\\', 'n']
  else if c.toNat = 12 then ['\\', 'f']
  else if c.toNat = 13 then ['\\', 'r']
  else ['\\', 'u', '0', '0', hexDigitLower (c.toNat / 16), hexDigitLower (c.toNat % 16)]

def jsonString (s : String) : String :=
  "\"" ++ String.mk (List.flatten (s.data.map jsonEscapeChar)) ++ "\""

/-! ## JOSE encoder (src/jose.rs)

`ring::signature::EcdsaKeyPair` is external; an account keypair is
modelled by the byte string `keypair.public_key().as_ref()` exposes (the
65-byte uncompressed point) and the PKCS#8 bytes; the signing operation
is an injected function where needed. -/

/-- Model of `AccountMaterial` (src/account.rs lines 16-24): the parsed
`EcdsaKeyPair` is represented by its public key bytes. -/
structure AccountMaterial where
  publicKey : List Nat
  pkcs8 : List Nat
  url : String
deriving DecidableEq

/-- Model of `Jwk` (src/jose.rs lines 64-73); the field `u` is
serialized under the name "use". -/
structure Jwk where
  alg : String
  crv : String
  kty : String
  u : String
  x : String
  y : String
deriving DecidableEq

/-- Model of `jwk` (src/jose.rs lines 52-62): split the public key
bytes after the leading 0x04 into the 32-byte x and y coordinates. -/
def jwk (publicKey : List Nat) : Jwk :=
  let rest := publicKey.drop 1
  let x := rest.take 32
  let y := rest.drop 32
  { alg := "ES256", crv := "P-256", kty := "EC", u := "sig",
    x := b64url x, y := b64url y }

/-- Serialization of `JwkThumb` (src/jose.rs lines 90-96): fields
crv, kty, x, y in declaration order. -/
def jwkThumbJson (j : Jwk) : String :=
  "\x7b\"crv\":" ++ jsonString j.crv ++ ",\"kty\":" ++ jsonString j.kty ++
    ",\"x\":" ++ jsonString j.x ++ ",\"y\":" ++ jsonString j.y ++ "\x7d"

/-- Model of `Jwk::thumbprint` (src/jose.rs lines 76-88). -/
def Jwk.thumbprint (j : Jwk) : String :=
  b64url (sha256 (utf8Encode (jwkThumbJson j)))

/-- Serialization of `Jwk` (fields alg, crv, kty, use, x, y). -/
def jwkJson (j : Jwk) : String :=
  "\x7b\"alg\":" ++ jsonString j.alg ++ ",\"crv\":" ++ jsonString j.crv ++
    ",\"kty\":" ++ jsonString j.kty ++ ",\"use\":" ++ jsonString j.u ++
    ",\"x\":" ++ jsonString j.x ++ ",\"y\":" ++ jsonString j.y ++ "\x7d"

/-- Model of `Protected` (src/jose.rs lines 98-108); the optional
fields are skipped by serialization when absent
(`skip_serializing_if = "Option::is_none"`). -/
structure Protected where
  alg : String
  jwk : Option Jwk
  kid : Option String
  nonce : Option String
  url : String
deriving DecidableEq

/-- Serialization of `Protected`, fields in declaration order, absent
options skipped. -/
def protectedJson (p : Protected) : String :=
  "\x7b\"alg\":" ++ jsonString p.alg ++
    (match p.jwk with
     | some j => ",\"jwk\":" ++ jwkJson j
     | none => "") ++
    (match p.kid with
     | some k => ",\"kid\":" ++ jsonString k
     | none => "") ++
    (match p.nonce with
     | some n => ",\"nonce\":" ++ jsonString n
     | none => "") ++
    ",\"url\":" ++ jsonString p.url ++ "\x7d"

/-- The flattened JWS produced by `jose`; `protectedHeader` is the
`Protected` value before encoding (the local `protected` of
src/jose.rs line 26; `protected` is a Lean keyword). -/
structure JoseBody where
  protectedHeader : Protected
  protectedB64 : String
  payload : String
  signature : String

/-- Model of `jose` (src/jose.rs lines 15-50).  `payload` is the
serialized `serde_json::Value` text when present; `sign` is the
(externally provided) ECDSA P-256 signing operation of the keypair. -/
def jose (sign : String → List Nat) (publicKey : List Nat) (payload : Option String)
    (kid : Option String) (nonce : Option String) (url : String) : JoseBody :=
  let jwkOpt : Option Jwk :=
    match kid with
    | none => some (jwk publicKey)
    | some _ => none
  let prot : Protected := { alg := "ES256", jwk := jwkOpt, kid := kid, nonce := nonce, url := url }
  let protB64 := b64url (utf8Encode (protectedJson prot))
  let payloadB64 :=
    match payload with
    | some p => b64url (utf8Encode p)
    | none => ""
  let message := protB64 ++ "." ++ payloadB64
  { protectedHeader := prot, protectedB64 := protB64, payload := payloadB64,
    signature := b64url (sign message) }

/-! ## Challenges (src/challenge.rs) -/

inductive ChallengeType where
  | http01
  | dns01
  | tlsSni01
  | tlsSni02
  | tlsAlpn01
deriving DecidableEq

inductive ChallengeStatus where
  | pending
  | processing
  | valid
  | invalid
deriving DecidableEq

/-- The serde tag strings of `ChallengeStatus` (src/challenge.rs lines
47-58): an internally tagged enum (`tag = "status"`) accepts exactly
its `rename` strings.  Note the rename on the `Invalid` variant is the
capitalized "Invalid". -/
def challengeStatusOfTag (s : String) : Option ChallengeStatus :=
  if s = "pending" then some .pending
  else if s = "processing" then some .processing
  else if s = "valid" then some .valid
  else if s = "Invalid" then some .invalid
  else none

structure Challenge where
  url : String
  token : String
  status : ChallengeStatus
  kind : ChallengeType
deriving DecidableEq

/-- Model of `Challenge::authorization_key` (src/challenge.rs lines
62-74): SHA-256 of `token + "." + thumbprint`, reinterpreted as a
string through `str::from_utf8(..).unwrap()`; `none` models the panic
of that `unwrap` when the digest is not valid UTF-8. -/
def authorization_key (c : Challenge) (account : AccountMaterial) : Option String :=
  let j := jwk account.publicKey
  let thumbprint := Jwk.thumbprint j
  rustFromUtf8 (sha256 (utf8Encode (c.token ++ "." ++ thumbprint)))

/-! ## Concrete account and challenge fixtures -/

/-- A concrete account keypair: uncompressed public key `04 ‖ 1..64`. -/
def fixtureAccount : AccountMaterial :=
  { publicKey := 4 :: (List.range 64).map (fun i => i + 1),
    pkcs8 := [1, 2, 3],
    url := "https://acme.test/acct/1" }

/-- Sanity check of the JWK coordinate encoding of the fixture key. -/
theorem fixture_jwk_xy :
    (jwk fixtureAccount.publicKey).x = "AQIDBAUGBwgJCgsMDQ4PEBESExQVFhcYGRobHB0eHyA"
    ∧ (jwk fixtureAccount.publicKey).y = "ISIjJCUmJygpKissLS4vMDEyMzQ1Njc4OTo7PD0-P0A" := by
  decide

/-- Sanity check of the fixture account's JWK thumbprint. -/
theorem fixture_thumbprint :
    (jwk fixtureAccount.publicKey).thumbprint =
      "t1ZI8tOt77KZ9YepYcUiqtqXcpIYInMJhkFb6casAFo" := by
  decide

/-- The tls-alpn-01 challenge used as the C3 failing input; its token is
the RFC 8555 example token. -/
def c3Challenge : Challenge :=
  { url := "https://acme.test/chall/1",
    token := "LoqXcYV8q5ONbJQxbmR7SCTNo3tiAXDfowyjxAjEuX0",
    status := .pending,
    kind := .tlsAlpn01 }

/-- C3: the claim says `Challenge::authorization_key` is total and
returns the raw 32-byte SHA-256 digest of `token + "." + thumbprint`.
In the code the digest is passed through `str::from_utf8(..).unwrap()`;
at this concrete (token, account) pair the digest is not valid UTF-8,
so the `unwrap` panics (modelled: `authorization_key` is `none`), and
the digest bytes shown are what the claim says should have been
returned. -/
theorem C3_authorization_key_panics :
    authorization_key c3Challenge fixtureAccount = none
    ∧ sha256 (utf8Encode (c3Challenge.token ++ "." ++
        (jwk fixtureAccount.publicKey).thumbprint)) =
      [207, 247, 51, 56, 128, 233, 51, 17, 223, 50, 156, 115, 71, 83, 162, 242,
       211, 53, 245, 84, 39, 173, 55, 207, 165, 89, 18, 216, 159, 1, 52, 170]
    ∧ utf8DecodeCps
        [207, 247, 51, 56, 128, 233, 51, 17, 223, 50, 156, 115, 71, 83, 162, 242,
         211, 53, 245, 84, 39, 173, 55, 207, 165, 89, 18, 216, 159, 1, 52, 170] = none := by
  decide

/-- C6: in every JWS the jose encoder produces, the protected header
carries `jwk` exactly when no account url (`kid`) is supplied, carries
the supplied `kid` otherwise, and exactly one of the two fields is
present. -/
theorem C6_jose_jwk_xor_kid (sign : String → List Nat) (publicKey : List Nat)
    (payload : Option String) (kid : Option String) (nonce : Option String) (url : String) :
    (jose sign publicKey payload kid nonce url).protectedHeader.jwk
        = (match kid with
           | none => some (jwk publicKey)
           | some _ => none)
    ∧ (jose sign publicKey payload kid nonce url).protectedHeader.kid = kid
    ∧ ((jose sign publicKey payload kid nonce url).protectedHeader.jwk.isSome
        = !(jose sign publicKey payload kid nonce url).protectedHeader.kid.isSome) := by
  cases kid <;> simp [jose]

/-- C9: of the four wire statuses of a challenge, "pending",
"processing" and "valid" deserialize to their variants, but "invalid"
is rejected — the serde rename on the `Invalid` variant is the
capitalized string "Invalid" (src/challenge.rs line 56), so the
lowercase wire status the RFC specifies does not deserialize. -/
theorem C9_challenge_status_tags :
    challengeStatusOfTag "pending" = some ChallengeStatus.pending
    ∧ challengeStatusOfTag "processing" = some ChallengeStatus.processing
    ∧ challengeStatusOfTag "valid" = some ChallengeStatus.valid
    ∧ challengeStatusOfTag "invalid" = none
    ∧ challengeStatusOfTag "Invalid" = some ChallengeStatus.invalid := by
  decide

/-! ## Certificate resolver (src/resolver.rs)

`rustls::sign::CertifiedKey` values are opaque handles; they are
modelled by an inductive identity.  The one-shot `flume` sender stored
in an entry is modelled by its presence (`Option Unit`); `resolve`
reports the attempted `try_send` (whose failure the code ignores) as
the second component of its result. -/

inductive CertKey where
  | selfSigned (domain : String)
  | challengeCert (domain : String) (authKey : String)
  | given (id : Nat)
deriving DecidableEq

/-- Model of `DomainResolver` (src/resolver.rs lines 16-20). -/
structure DomainResolver where
  key : CertKey
  challenge_key : Option CertKey
  notifier : Option Unit
deriving DecidableEq

/-- Model of `rcgen`-backed `create_self_signed_certificate`
(src/resolver.rs lines 86-99); the generated key is identified by its
domain (generation itself is external). -/
def create_self_signed_certificate (domain_name : String) : CertKey :=
  .selfSigned domain_name

/-- Model of `Challenge::certificate` (src/challenge.rs lines 76-99):
the rcgen-generated challenge certificate, identified by domain and
embedded key authorization (the error path of `Certificate::from_params`
is internal to rcgen and not modelled). -/
def Challenge.certificate (domain_name : String) (authorization_key : String) : CertKey :=
  .challengeCert domain_name authorization_key

/-- The flashmap `server_name → DomainResolver` map, modelled as an
association list with first-match lookup and replace-or-append insert
(hash map semantics; the epoch mechanics of flashmap are external). -/
abbrev ResolverMap := List (String × DomainResolver)

def mapGet (m : ResolverMap) (k : String) : Option DomainResolver :=
  (m.find? (fun e => e.fst == k)).map Prod.snd

def mapInsert (m : ResolverMap) (k : String) (v : DomainResolver) : ResolverMap :=
  match m with
  | [] => [(k, v)]
  | (k0, v0) :: rest => if k0 == k then (k, v) :: rest else (k0, v0) :: mapInsert rest k v

/-- Model of `Acme::from_client_and_domain_keys` (src/client.rs lines
28-53): store each domain name as given (no normalization), with the
provided key or a fresh self-signed one, and no challenge key or
notifier.  Returns the resolver map and the domains list. -/
def from_client_and_domain_keys (domain_names : List (String × Option CertKey)) :
    ResolverMap × List String :=
  domain_names.foldl
    (fun acc p =>
      let entry : DomainResolver :=
        { key := match p.snd with
                 | some k => k
                 | none => create_self_signed_certificate p.fst,
          challenge_key := none,
          notifier := none }
      (mapInsert acc.fst p.fst entry, acc.snd ++ [p.fst]))
    ([], [])

/-- What `resolve` reads from a rustls `ClientHello`: the SNI server
name and the client's ALPN protocol list (byte strings). -/
structure ClientHello where
  server_name : Option String
  alpn : Option (List (List Nat))
deriving DecidableEq

/-- The `acme-tls/1` ALPN protocol identifier bytes (`b"acme-tls/1"`). -/
def acmeTls1 : List Nat := utf8Encode "acme-tls/1"

/-- Model of `CertResolver::resolve` (src/resolver.rs lines 51-83).
Returns the selected key and, when a challenge handshake fires the
notifier, the message passed to `try_send` (the server name); the
`let _ =` of the code drops the send result, so the send is
fire-and-forget. -/
def resolve (m : ResolverMap) (client_hello : ClientHello) :
    Option CertKey × Option String :=
  match client_hello.server_name with
  | some server_name =>
    if (client_hello.alpn.bind (fun it => it.find? (fun p => p == acmeTls1))).isSome then
      match mapGet m server_name with
      | some resolver =>
        match resolver.challenge_key with
        | some key => (some key, resolver.notifier.map (fun _ => server_name))
        | none => (none, none)
      | none => (none, none)
    else
      match mapGet m server_name with
      | some resolver => (some resolver.key, none)
      | none => (none, none)
  | none => (none, none)

/-- The C1 sentence of the specification, written as the spec states
it: no server name ⇒ none; `acme-tls/1` offered ⇒ the challenge key
when the entry exists and has one (with the notifier signalled when
present) and none otherwise; `acme-tls/1` not offered ⇒ the entry's
production key, or none when no entry exists. -/
def resolve_spec (m : ResolverMap) (client_hello : ClientHello) :
    Option CertKey × Option String :=
  match client_hello.server_name with
  | none => (none, none)
  | some name =>
    let offered :=
      match client_hello.alpn with
      | some protocols => protocols.any (fun p => p == acmeTls1)
      | none => false
    if offered then
      match mapGet m name with
      | some entry =>
        match entry.challenge_key with
        | some challengeKey => (some challengeKey, entry.notifier.map (fun _ => name))
        | none => (none, none)
      | none => (none, none)
    else
      ((mapGet m name).map (fun entry => entry.key), none)

/-- Auxiliary: a `find?` is some exactly when `any` holds. -/
theorem find?_isSome_eq_any (l : List (List Nat)) :
    (l.find? (fun p => p == acmeTls1)).isSome = l.any (fun p => p == acmeTls1) := by
  induction l with
  | nil => rfl
  | cons hd tl ih =>
    simp only [List.find?, List.any]
    cases h : (hd == acmeTls1) <;> simp [h, ih]

/-- C1: `resolve` behaves exactly as the specification's case analysis
describes, for every resolver map and client hello. -/
theorem C1_resolve_follows_spec (m : ResolverMap) (client_hello : ClientHello) :
    resolve m client_hello = resolve_spec m client_hello := by
  unfold resolve resolve_spec
  cases hs : client_hello.server_name with
  | none => rfl
  | some name =>
    have halpn :
        (client_hello.alpn.bind (fun it => it.find? (fun p => p == acmeTls1))).isSome =
          (match client_hello.alpn with
           | some protocols => protocols.any (fun p => p == acmeTls1)
           | none => false) := by
      cases client_hello.alpn with
      | none => rfl
      | some protocols => simpa using find?_isSome_eq_any protocols
    rw [halpn]
    cases (match client_hello.alpn with
           | some protocols => protocols.any (fun p => p == acmeTls1)
           | none => false) with
    | true => rfl
    | false =>
      simp only [if_false]
      cases mapGet m name with
      | none => rfl
      | some entry => rfl

/-! ## C8: case sensitivity of the resolver lookup -/

/-- Resolver built for the single configured domain "a.test" (stored
verbatim by `from_client_and_domain_keys`, which performs no case
normalization). -/
def c8Map : ResolverMap := (from_client_and_domain_keys [("a.test", none)]).fst

/-- A client hello whose SNI differs from the stored name only in ASCII
letter case. -/
def c8HelloUpper : ClientHello := { server_name := some "A.test", alpn := none }

/-- The exactly matching client hello. -/
def c8HelloExact : ClientHello := { server_name := some "a.test", alpn := none }

/-- C8 counterexample: the claim says a server name differing from the
stored domain only in ASCII letter case resolves to the same result as
the exact name; in fact the flashmap lookup is an exact string match,
so "A.test" finds nothing while "a.test" finds the production key. -/
theorem C8_counterexample :
    resolve c8Map c8HelloUpper = (none, none)
    ∧ resolve c8Map c8HelloExact = (some (CertKey.selfSigned "a.test"), none)
    ∧ resolve c8Map c8HelloUpper ≠ resolve c8Map c8HelloExact := by
  decide

/-- C8 amended: the lookup `resolve` performs is an exact (byte-wise,
case-sensitive) match on the server name: whenever the client hello's
server name is not literally a key of the map — in particular when it
differs from every stored name only in ASCII letter case — `resolve`
returns no key and fires no notifier. -/
theorem C8_lookup_is_exact (m : ResolverMap) (client_hello : ClientHello) (name : String)
    (hname : client_hello.server_name = some name)
    (habsent : mapGet m name = none) :
    resolve m client_hello = (none, none) := by
  unfold resolve
  rw [hname]
  cases halpn : (client_hello.alpn.bind (fun it => it.find? (fun p => p == acmeTls1))).isSome with
  | true => simp [habsent]
  | false => simp [habsent]

/-- Witness for C8_lookup_is_exact at the concrete counterexample
input. -/
theorem C8_lookup_is_exact_witness :
    resolve c8Map c8HelloUpper = (none, none) :=
  C8_lookup_is_exact c8Map c8HelloUpper "A.test" rfl (by decide)

/-! ## Order state machine (src/order.rs, src/authorization.rs)

The HTTP transport is injected through `Env`: each call site receives
the parsed result of its request (`none` standing for any of that call
site's failure modes — transport error, non-2xx response, body that
fails to deserialize, and the `new_nonce` fetch which precedes each
signed request — all of which the code collapses into that call site's
`ErrorKind`).  CSR generation (`Csr::try_from`, which generates a fresh
ECDSA keypair on every call) is injected as `mkCsr`, applied to a
running generation counter so that distinct calls yield the
environment's chosen, possibly distinct, CSRs.  The state `St` carries
the resolver map (the `WriteHandle` side), the call counters and an
event trace; timed delays appear in the trace as `delaySecs` events. -/

/-- Model of `Identifier` (src/order.rs lines 71-76). -/
inductive Identifier where
  | dns (value : String)
deriving DecidableEq

/-- Model of `OrderStatus` (src/order.rs lines 43-56). -/
inductive OrderStatus where
  | pending
  | ready
  | valid (certificate : String)
  | invalid
  | processing
deriving DecidableEq

/-- Model of `Order` (src/order.rs lines 33-40). -/
structure Order where
  identifiers : List Identifier
  authorizations : List String
  finalizeUrl : String
  status : OrderStatus
deriving DecidableEq

/-- Model of `LocatedOrder` (src/order.rs lines 26-30). -/
structure LocatedOrder where
  url : String
  order : Order
deriving DecidableEq

/-- Model of `AuthorizationStatus` (src/authorization.rs lines 21-36). -/
inductive AuthorizationStatus where
  | pending
  | valid
  | invalid
  | revoked
  | expired
  | deactivated
deriving DecidableEq

/-- Model of `Authorization` (src/authorization.rs lines 13-19). -/
structure Authorization where
  identifier : Identifier
  challenges : List Challenge
  status : AuthorizationStatus
deriving DecidableEq

/-- Model of `Csr` (src/csr.rs lines 5-9). -/
structure Csr where
  private_key_pem : String
  der : List Nat
deriving DecidableEq

/-- Model of `ErrorKind` (src/errors.rs lines 18-40); message/cause
chains (`with_msg`, `wrap`) are not tracked. -/
inductive ErrorKind where
  | connectionError
  | tooManyRequests
  | serviceUnavailable
  | deserializationError (type_name : String)
  | fetchDirectory (url : String)
  | invalidKey
  | newNonce
  | newAccount
  | deserializeAccount
  | getAccount
  | changeAccountKey
  | csr (domains : List String)
  | newOrder
  | invalidOrder (domains : List String)
  | getAuthorization
  | invalidAuthorization
  | challenge
  | getOrder
  | finalizeOrder
  | downloadCertificate
  | orderProcessing (csr : Csr)
deriving DecidableEq

/-- Outcome of a driver function: a PEM string, a typed error, or a
Rust panic. -/
inductive RunResult where
  | ok (pem : String)
  | err (e : ErrorKind)
  | panicked (msg : String)
deriving DecidableEq

/-- Trace events: HTTP calls, CSR generations and awaited delays. -/
inductive Event where
  | newOrderCall
  | authorizeCall (url : String)
  | acceptCall (url : String)
  | csrGenerated (n : Nat)
  | finalizeCall (n : Nat)
  | tryGetCall (n : Nat)
  | delaySecs (n : Nat)
  | downloadCall (url : String)
deriving DecidableEq

/-- Outcome of the 120 s wait on the pending challenge receivers. -/
inductive WaitOutcome where
  | fired
  | timedOut
  | recvFailed
deriving DecidableEq

/-- Mutable state threaded through the driver. -/
structure St where
  map : ResolverMap
  csrCount : Nat
  finalizeCount : Nat
  tryGetCount : Nat
  events : List Event
deriving DecidableEq

/-- Injected environment: parsed HTTP responses per call site, the
challenge-wait outcome, and the CSR generator. -/
structure Env where
  newOrderHttp : Option (String × Order)
  authorizeHttp : String → Option Authorization
  acceptHttp : String → Option ChallengeStatus
  waitOutcome : WaitOutcome
  tryGetHttp : Nat → Option OrderStatus
  finalizeHttp : Nat → Option OrderStatus
  downloadHttp : String → Option String
  mkCsr : Nat → List String → Csr

/-- Append an event to the trace. -/
def emit (st : St) (e : Event) : St := { st with events := st.events ++ [e] }

/-- The domain names of an order's identifiers (as collected in
src/order.rs lines 243-250 and 407-416). -/
def domainsOf (self : LocatedOrder) : List String :=
  self.order.identifiers.map (fun i =>
    match i with
    | .dns name => name)

/-- Model of `LocatedOrder::download_certificate` (src/order.rs lines
464-499): POST-as-GET the certificate URL and prepend the CSR's
private key PEM (`[pem, chain].join("\n")`). -/
def download_certificate (env : Env) (url : String) (csr : Csr) (st : St) :
    RunResult × St :=
  let st := emit st (.downloadCall url)
  match env.downloadHttp url with
  | some pem_certificate_chain => (.ok (csr.private_key_pem ++ "\n" ++ pem_certificate_chain), st)
  | none => (.err .downloadCertificate, st)

/-- Model of `LocatedOrder::finalize` (src/order.rs lines 399-455):
build a fresh CSR over the identifiers (`Csr::try_from` generates a new
keypair on every call), POST it to the finalize URL, then dispatch on
the response body's order status. -/
def finalize (env : Env) (self : LocatedOrder) (st : St) : RunResult × St :=
  let domain_names := domainsOf self
  let csr := env.mkCsr st.csrCount domain_names
  let st := emit { st with csrCount := st.csrCount + 1 } (.csrGenerated st.csrCount)
  let n := st.finalizeCount
  let st := emit { st with finalizeCount := n + 1 } (.finalizeCall n)
  match env.finalizeHttp n with
  | none => (.err .finalizeOrder, st)
  | some status =>
    match status with
    | .processing => (.err (.orderProcessing csr), st)
    | .valid certificate => download_certificate env certificate csr st
    | _ => (.err .finalizeOrder, st)

/-- Model of the `try_join_all` over `Authorization::authorize`
(src/order.rs lines 274-280, src/authorization.rs lines 47-80),
sequentialized: fetch each authorization in turn, stopping at the
first failure (`GetAuthorization`). -/
def authorizeAll (env : Env) : List String → St → Option (List Authorization) × St
  | [], st => (some [], st)
  | url :: rest, st =>
    let st := emit st (.authorizeCall url)
    match env.authorizeHttp url with
    | none => (none, st)
    | some a =>
      match authorizeAll env rest st with
      | (some more, st2) => (some (a :: more), st2)
      | (none, st2) => (none, st2)

/-- Model of the inner challenge loop of `LocatedOrder::retry`
(src/order.rs lines 297-321) for one pending authorization: for every
`tls-alpn-01` challenge, look the domain up in the resolver map with
an unconditional `unwrap` (panic when absent), compute the key
authorization (panic when the digest is not UTF-8), install the
challenge certificate and a fresh notifier, then POST the challenge
acceptance and dispatch on the returned status.  Returns `some` of an
early exit, or `none` to continue, with the updated state and
pending-receiver count. -/
def installChallenges (env : Env) (account : AccountMaterial) (domain_name : String) :
    List Challenge → St → Nat → Option RunResult × St × Nat
  | [], st, pend => (none, st, pend)
  | challenge :: rest, st, pend =>
    match challenge.kind with
    | .tlsAlpn01 =>
      match mapGet st.map domain_name with
      | none => (some (.panicked "Option::unwrap on None: resolver entry"), st, pend)
      | some resolver =>
        match authorization_key challenge account with
        | none => (some (.panicked "Result::unwrap on Utf8Error: authorization_key"), st, pend)
        | some auth_key =>
          let entry : DomainResolver :=
            { key := resolver.key,
              challenge_key := some (Challenge.certificate domain_name auth_key),
              notifier := some () }
          let st := { st with map := mapInsert st.map domain_name entry }
          let st := emit st (.acceptCall challenge.url)
          match env.acceptHttp challenge.url with
          | none => (some (.err .challenge), st, pend)
          | some status =>
            match status with
            | .processing => installChallenges env account domain_name rest st (pend + 1)
            | .pending => installChallenges env account domain_name rest st (pend + 1)
            | .valid => installChallenges env account domain_name rest st pend
            | .invalid => (some (.err .challenge), st, pend)
    | _ => installChallenges env account domain_name rest st pend

/-- Model of the outer authorization loop of `LocatedOrder::retry`
(src/order.rs lines 294-324): only pending authorizations have their
challenges processed. -/
def installAuthorizations (env : Env) (account : AccountMaterial) :
    List Authorization → St → Nat → Option RunResult × St × Nat
  | [], st, pend => (none, st, pend)
  | authorization :: rest, st, pend =>
    match authorization.identifier with
    | .dns domain_name =>
      match authorization.status with
      | .pending =>
        match installChallenges env account domain_name authorization.challenges st pend with
        | (some r, st2, pend2) => (some r, st2, pend2)
        | (none, st2, pend2) => installAuthorizations env account rest st2 pend2
      | _ => installAuthorizations env account rest st pend

/-- Model of the 120 s `select` wait on the pending receivers
(src/order.rs lines 325-343): with no pending receiver the
`FuturesUnordered` completes immediately; otherwise the environment
decides whether every receiver fires in time, the timer wins, or a
receive fails (the latter two both yield `ErrorKind::Challenge`). -/
def waitChallenges (env : Env) (pend : Nat) : Option RunResult :=
  if pend = 0 then none
  else
    match env.waitOutcome with
    | .fired => none
    | .timedOut => some (.err .challenge)
    | .recvFailed => some (.err .challenge)

/-- The polling loop over `try_get` (src/order.rs lines 345-386), with
the remaining delays given in pop order (`Vec::pop` removes from the
end, so `vec![10, 150]` yields 150 before 10; see `pollOrder`). -/
def pollGo (env : Env) (self : LocatedOrder) : List Nat → St → RunResult × St
  | delays, st =>
    let n := st.tryGetCount
    let st := emit { st with tryGetCount := n + 1 } (.tryGetCall n)
    match env.tryGetHttp n with
    | none => (.err .getOrder, st)
    | some status =>
      match status with
      | .invalid => (.err (.invalidOrder (domainsOf self)), st)
      | .ready => finalize env self st
      | .pending =>
        match delays with
        | delay :: rest => pollGo env self rest (emit st (.delaySecs delay))
        | [] => (.err .newOrder, st)
      | _ => (.err .newOrder, st)

/-- The polling loop entry: `let mut delays = vec![10u64, 150u64]`
with `delays.pop()` taking from the end, i.e. the delays are consumed
in reversed push order. -/
def pollOrder (env : Env) (self : LocatedOrder) (delays : List Nat) (st : St) :
    RunResult × St :=
  pollGo env self delays.reverse st

/-- The early-exit test on fetched authorizations (src/order.rs lines
282-289): some authorization is in a status other than `valid` or
`pending`. -/
def authFailed (authorizations : List Authorization) : Bool :=
  authorizations.any (fun it =>
    match it.status with
    | .valid => false
    | .pending => false
    | _ => true)

/-- Model of `LocatedOrder::retry` (src/order.rs lines 232-389). -/
def retry (env : Env) (account : AccountMaterial) (self : LocatedOrder)
    (csr : Option Csr) (st : St) : RunResult × St :=
  match self.order.status with
  | .invalid => (.err (.invalidOrder (domainsOf self)), st)
  | .ready => finalize env self st
  | .valid certificate =>
    match csr with
    | some csr => download_certificate env certificate csr st
    | none => (.err .newOrder, st)
  | .processing =>
    match csr with
    | some csr => (.err (.orderProcessing csr), st)
    | none => (.err .newOrder, st)
  | .pending =>
    match authorizeAll env self.order.authorizations st with
    | (none, st) => (.err .getAuthorization, st)
    | (some authorizations, st) =>
      if authFailed authorizations then
        (.err .invalidAuthorization, st)
      else
        match installAuthorizations env account authorizations st 0 with
        | (some r, st, _) => (r, st)
        | (none, st, pend) =>
          match waitChallenges env pend with
          | some r => (r, st)
          | none => pollOrder env self [10, 150] st

/-- The retry loop of `LocatedOrder::process` (src/order.rs lines
158-180), with the delay budget in pop order.  On an `OrderProcessing`
error the code pops a delay and stores the carried CSR, but performs
no `Delay` await and no re-fetch before calling `retry` again — hence
no `delaySecs` or `tryGetCall` event is emitted here. -/
def processGo (env : Env) (account : AccountMaterial) (self : LocatedOrder) :
    List Nat → Option Csr → St → RunResult × St
  | delays, maybe_csr, st =>
    match retry env account self maybe_csr st with
    | (.err (.orderProcessing csr), st2) =>
      match delays with
      | _ :: rest => processGo env account self rest (some csr) st2
      | [] => (.err .newOrder, st2)
    | (r, st2) => (r, st2)

/-- Model of `LocatedOrder::process` (src/order.rs lines 145-181):
`let mut delays = vec![10u64, 150u64]`, popped from the end. -/
def process (env : Env) (account : AccountMaterial) (self : LocatedOrder) (st : St) :
    RunResult × St :=
  processGo env account self ([10, 150] : List Nat).reverse none st

/-- Model of `Acme::request_certificates` (src/lib.rs lines 85-94):
`new_order` (src/order.rs lines 88-132) followed by `process`. -/
def request_certificates (env : Env) (account : AccountMaterial) (st : St) :
    RunResult × St :=
  let st := emit st .newOrderCall
  match env.newOrderHttp with
  | none => (.err .newOrder, st)
  | some located => process env account { url := located.fst, order := located.snd } st

/-! ## Concrete driver runs -/

/-- Environment with all requests failing; concrete runs override the
fields they exercise.  The injected CSR generator yields a distinct
keypair per generation counter, as `Csr::try_from` does. -/
def envBase : Env :=
  { newOrderHttp := none,
    authorizeHttp := fun _ => none,
    acceptHttp := fun _ => none,
    waitOutcome := .fired,
    tryGetHttp := fun _ => none,
    finalizeHttp := fun _ => none,
    downloadHttp := fun _ => none,
    mkCsr := fun n _ => { private_key_pem := "KEY" ++ Nat.repr n, der := [n] } }

/-- Fresh driver state over a given resolver map. -/
def stInit (m : ResolverMap) : St :=
  { map := m, csrCount := 0, finalizeCount := 0, tryGetCount := 0, events := [] }

/-- Resolver configured for the single domain "a.test". -/
def fixtureMap : ResolverMap := (from_client_and_domain_keys [("a.test", none)]).fst

/-- An order that is already `ready` (for the finalize/processing runs). -/
def readyOrder : Order :=
  { identifiers := [.dns "a.test"],
    authorizations := [],
    finalizeUrl := "https://acme.test/finalize/1",
    status := .ready }

/-! ### C2: the resolver entry is not reverted -/

/-- A tls-alpn-01 challenge whose token was chosen so that the SHA-256
digest of `token + "." + thumbprint` happens to be valid UTF-8, so
`authorization_key` does not panic and the challenge key actually gets
installed. -/
def c2Challenge : Challenge :=
  { url := "https://acme.test/chall/2",
    token := "t6104615",
    status := .pending,
    kind := .tlsAlpn01 }

def c2Authorization : Authorization :=
  { identifier := .dns "a.test", challenges := [c2Challenge], status := .pending }

def c2Order : Order :=
  { identifiers := [.dns "a.test"],
    authorizations := ["https://acme.test/authz/1"],
    finalizeUrl := "https://acme.test/finalize/1",
    status := .pending }

/-- The CA accepts the authorization fetch and then reports the
challenge `invalid`, so `retry` exits with `ErrorKind::Challenge`
right after installing the challenge key. -/
def c2Env : Env :=
  { envBase with
    newOrderHttp := some ("https://acme.test/order/1", c2Order),
    authorizeHttp := fun url =>
      if url = "https://acme.test/authz/1" then some c2Authorization else none,
    acceptHttp := fun _ => some .invalid }

def c2St : St := stInit fixtureMap

/-- Sanity: this token's key-authorization digest is valid UTF-8, so
the installation path is actually reached. -/
theorem c2_token_digest_is_utf8 :
    (authorization_key c2Challenge fixtureAccount).isSome = true := by decide

/-- C2 counterexample: `request_certificates` returns
`Err(Challenge)` from a run in which it installed the challenge key
and notifier for "a.test", yet the entry still carries both on return
— the claim that they are removed on every exit path fails here. -/
theorem C2_counterexample :
    (request_certificates c2Env fixtureAccount c2St).fst = RunResult.err ErrorKind.challenge
    ∧ ((mapGet (request_certificates c2Env fixtureAccount c2St).snd.map "a.test").map
        (fun e => (e.challenge_key.isSome, e.notifier.isSome))) = some (true, true)
    ∧ ((mapGet c2St.map "a.test").map
        (fun e => (e.challenge_key.isSome, e.notifier.isSome))) = some (false, false) := by
  decide

/-! ### C4: the processing re-check loop -/

/-- The finalize endpoint reports `processing` on every attempt. -/
def c4Env : Env :=
  { envBase with
    newOrderHttp := some ("https://acme.test/order/1", readyOrder),
    finalizeHttp := fun _ => some .processing }

def c4St : St := stInit fixtureMap

/-- C4: when the driver observes `processing` after finalize, the code
performs no delay and no re-fetch of the order: it immediately calls
`retry` again (re-posting finalize), and fails with `NewOrder` after
exhausting the two retry budget entries — the trace contains three
finalize posts and not a single `delaySecs` or `tryGetCall` event,
contradicting the claimed 10 s / 150 s re-fetch schedule (which the
code's own comment at src/order.rs lines 152-157 also states). -/
theorem C4_processing_no_delay_no_refetch :
    (request_certificates c4Env fixtureAccount c4St).fst = RunResult.err ErrorKind.newOrder
    ∧ (request_certificates c4Env fixtureAccount c4St).snd.events =
        [Event.newOrderCall,
         Event.csrGenerated 0, Event.finalizeCall 0,
         Event.csrGenerated 1, Event.finalizeCall 1,
         Event.csrGenerated 2, Event.finalizeCall 2]
    ∧ ((request_certificates c4Env fixtureAccount c4St).snd.events.all
        (fun e =>
          match e with
          | .delaySecs _ => false
          | .tryGetCall _ => false
          | _ => true)) = true := by
  decide

/-! ### C5: the CSR is regenerated across retries -/

/-- First finalize attempt comes back `processing`, the second `valid`;
the certificate chain then downloads. -/
def c5Env : Env :=
  { envBase with
    newOrderHttp := some ("https://acme.test/order/1", readyOrder),
    finalizeHttp := fun n =>
      if n = 0 then some .processing else some (.valid "https://acme.test/cert/1"),
    downloadHttp := fun _ => some "CHAIN" }

def c5St : St := stInit fixtureMap

/-- C5: across one `request_certificates` call the driver generated two
CSR keypairs: the CSR carried through `OrderProcessing` is never reused
by `finalize`, which builds a fresh one on each call; the returned PEM
embeds the second CSR's key ("KEY1") although the CSR the CA accepted
on the first finalize was "KEY0". -/
theorem C5_csr_regenerated :
    (request_certificates c5Env fixtureAccount c5St).fst = RunResult.ok "KEY1\nCHAIN"
    ∧ (request_certificates c5Env fixtureAccount c5St).snd.csrCount = 2
    ∧ ((request_certificates c5Env fixtureAccount c5St).snd.events.filter
        (fun e =>
          match e with
          | .csrGenerated _ => true
          | _ => false)) = [Event.csrGenerated 0, Event.csrGenerated 1] := by
  decide

/-! ### C10: pending authorization whose identifier is not in the map -/

/-- A pending authorization for "b.test" (not a key of the resolver
map) carrying only an http-01 challenge. -/
def c10Challenge : Challenge :=
  { url := "https://acme.test/chall/3", token := "tok", status := .pending, kind := .http01 }

def c10Authorization : Authorization :=
  { identifier := .dns "b.test", challenges := [c10Challenge], status := .pending }

def c10Order : Order :=
  { identifiers := [.dns "b.test"],
    authorizations := ["https://acme.test/authz/2"],
    finalizeUrl := "https://acme.test/finalize/2",
    status := .pending }

def c10Env : Env :=
  { envBase with
    newOrderHttp := some ("https://acme.test/order/2", c10Order),
    authorizeHttp := fun url =>
      if url = "https://acme.test/authz/2" then some c10Authorization else none,
    tryGetHttp := fun _ => some .ready,
    finalizeHttp := fun _ => some (.valid "https://acme.test/cert/2"),
    downloadHttp := fun _ => some "CHAIN" }

def c10St : St := stInit fixtureMap

/-- C10 counterexample: the CA returns a pending authorization whose
identifier "b.test" is not a key of the resolver map, yet
`request_certificates` completes with a `Result` (here `Ok`) instead
of panicking: the unwrap-guarded lookup only happens for `tls-alpn-01`
challenges, and this authorization carries none. -/
theorem C10_counterexample :
    (request_certificates c10Env fixtureAccount c10St).fst = RunResult.ok "KEY0\nCHAIN"
    ∧ mapGet c10St.map "b.test" = none
    ∧ c10Authorization.status = AuthorizationStatus.pending
    ∧ mapGet (request_certificates c10Env fixtureAccount c10St).snd.map "b.test" = none := by
  decide

/-! ### C10 amended: the unwrap-guarded lookup -/

/-- Whether a challenge is a tls-alpn-01 challenge (the guard at
src/order.rs line 298). -/
def isTlsAlpn (c : Challenge) : Bool :=
  match c.kind with
  | .tlsAlpn01 => true
  | _ => false

/-- When a pending authorization's challenge list contains a
tls-alpn-01 challenge and the domain is not a key of the resolver map,
the install loop reaches `guard.get(domain_name).unwrap()` on an absent
entry and panics, leaving state untouched. -/
theorem installChallenges_absent_panics
    (env : Env) (account : AccountMaterial) (domain_name : String)
    (cs : List Challenge) (st : St) (pend : Nat)
    (htls : cs.any isTlsAlpn = true)
    (habsent : mapGet st.map domain_name = none) :
    installChallenges env account domain_name cs st pend =
      (some (RunResult.panicked "Option::unwrap on None: resolver entry"), st, pend) := by
  induction cs with
  | nil => simp at htls
  | cons c rest ih =>
    simp only [List.any_cons, Bool.or_eq_true] at htls
    cases hk : c.kind
    case tlsAlpn01 => simp [installChallenges, hk, habsent]
    all_goals
      have ht : rest.any isTlsAlpn = true := by
        rcases htls with h | h
        · rw [isTlsAlpn, hk] at h; simp at h
        · exact h
    all_goals simp [installChallenges, hk, ih ht]

/-- C10 amended: the resolver-map entry is looked up with an
unconditional unwrap only for `tls-alpn-01` challenges of pending
authorizations; when the (single) pending authorization the CA returns
carries a tls-alpn-01 challenge and its DNS identifier is not a key of
the resolver map, `request_certificates` panics instead of returning a
typed error.  (Pending authorizations without a tls-alpn-01 challenge
are skipped without any lookup, so the call can complete with a
`Result` even though their identifiers are absent — see the
counterexample.) -/
theorem C10_absent_entry_panics (env : Env) (account : AccountMaterial)
    (self : LocatedOrder) (st : St) (u : String) (a : Authorization) (d : String)
    (hstatus : self.order.status = OrderStatus.pending)
    (hauths : self.order.authorizations = [u])
    (hresp : env.authorizeHttp u = some a)
    (hpend : a.status = AuthorizationStatus.pending)
    (hid : a.identifier = Identifier.dns d)
    (htls : a.challenges.any isTlsAlpn = true)
    (habsent : mapGet st.map d = none) :
    (retry env account self none st).fst =
      RunResult.panicked "Option::unwrap on None: resolver entry" := by
  rcases self with ⟨surl, ⟨ids, auths, fin, stat⟩⟩
  dsimp only at hstatus hauths
  subst hstatus
  subst hauths
  have hAuth : authorizeAll env [u] st = (some [a], emit st (.authorizeCall u)) := by
    simp [authorizeAll, hresp]
  have hInstall :
      installAuthorizations env account [a] (emit st (.authorizeCall u)) 0 =
        (some (RunResult.panicked "Option::unwrap on None: resolver entry"),
          emit st (.authorizeCall u), 0) := by
    have habsent2 : mapGet (emit st (.authorizeCall u)).map d = none := habsent
    simp [installAuthorizations, hid, hpend,
      installChallenges_absent_panics env account d a.challenges
        (emit st (.authorizeCall u)) 0 htls habsent2]
  simp [retry, hAuth, hInstall, hpend, authFailed]

/-- Concrete input for the C10 witness: a pending authorization for the
absent domain "b.test" that does carry a tls-alpn-01 challenge. -/
def c10wChallenge : Challenge :=
  { url := "https://acme.test/chall/4", token := "tok", status := .pending, kind := .tlsAlpn01 }

def c10wAuthorization : Authorization :=
  { identifier := .dns "b.test", challenges := [c10wChallenge], status := .pending }

def c10wSelf : LocatedOrder :=
  { url := "https://acme.test/order/3",
    order :=
      { identifiers := [.dns "b.test"],
        authorizations := ["https://acme.test/authz/3"],
        finalizeUrl := "https://acme.test/finalize/3",
        status := .pending } }

def c10wEnv : Env :=
  { envBase with
    authorizeHttp := fun url =>
      if url = "https://acme.test/authz/3" then some c10wAuthorization else none }

/-- Witness for C10_absent_entry_panics at a concrete input. -/
theorem C10_absent_entry_panics_witness :
    (retry c10wEnv fixtureAccount c10wSelf none (stInit fixtureMap)).fst =
      RunResult.panicked "Option::unwrap on None: resolver entry" :=
  C10_absent_entry_panics c10wEnv fixtureAccount c10wSelf (stInit fixtureMap)
    "https://acme.test/authz/3" c10wAuthorization "b.test"
    rfl rfl (by decide) rfl rfl (by decide) (by decide)

/-! ### C2 amended: entries written by the driver are never reverted

The only writes `request_certificates` ever performs on the resolver
map are the challenge installations; no code path removes a
`challenge_key` or `notifier` again.  `InstalledOnly m0 m1` states
that every entry of `m1` that differs from `m0` is a fully installed
challenge entry. -/

def InstalledOnly (m0 m1 : ResolverMap) : Prop :=
  ∀ d, mapGet m1 d ≠ mapGet m0 d →
    ∃ e, mapGet m1 d = some e ∧ e.challenge_key.isSome = true ∧ e.notifier.isSome = true

theorem installedOnly_refl (m : ResolverMap) : InstalledOnly m m :=
  fun _ h => absurd rfl h

theorem installedOnly_of_eq {m0 m1 : ResolverMap} (h : m1 = m0) : InstalledOnly m0 m1 := by
  subst h; exact installedOnly_refl m1

theorem installedOnly_trans {m0 m1 m2 : ResolverMap}
    (h01 : InstalledOnly m0 m1) (h12 : InstalledOnly m1 m2) : InstalledOnly m0 m2 := by
  intro d hne
  by_cases h : mapGet m2 d = mapGet m1 d
  · obtain ⟨e, he, hc, hn⟩ := h01 d (fun hx => hne (h.trans hx))
    exact ⟨e, h.trans he, hc, hn⟩
  · exact h12 d h

theorem mapGet_cons (k0 : String) (v0 : DomainResolver) (rest : ResolverMap) (d : String) :
    mapGet ((k0, v0) :: rest) d = if k0 = d then some v0 else mapGet rest d := by
  by_cases h : k0 = d
  · have hb : (k0 == d) = true := beq_iff_eq.mpr h
    simp [mapGet, List.find?, hb, h]
  · have hb : (k0 == d) = false := beq_eq_false_iff_ne.mpr h
    simp [mapGet, List.find?, hb, h]

theorem mapGet_mapInsert (m : ResolverMap) (k : String) (v : DomainResolver) (d : String) :
    mapGet (mapInsert m k v) d = if d = k then some v else mapGet m d := by
  induction m with
  | nil =>
    rw [show mapInsert [] k v = [(k, v)] from rfl, mapGet_cons]
    by_cases h : d = k
    · rw [if_pos h.symm, if_pos h]
    · rw [if_neg (fun hx => h hx.symm), if_neg h]
  | cons p rest ih =>
    obtain ⟨k0, v0⟩ := p
    by_cases h0 : k0 = k
    · have hb : (k0 == k) = true := beq_iff_eq.mpr h0
      rw [show mapInsert ((k0, v0) :: rest) k v = (k, v) :: rest from by
        simp [mapInsert, hb]]
      rw [mapGet_cons, mapGet_cons]
      by_cases h : d = k
      · rw [if_pos h.symm, if_pos h]
      · rw [if_neg (fun hx => h hx.symm), if_neg h,
          if_neg (fun hx : k0 = d => h (hx.symm.trans h0))]
    · have hb : (k0 == k) = false := beq_eq_false_iff_ne.mpr h0
      rw [show mapInsert ((k0, v0) :: rest) k v = (k0, v0) :: mapInsert rest k v from by
        simp [mapInsert, hb]]
      rw [mapGet_cons, mapGet_cons, ih]
      by_cases h : k0 = d
      · rw [if_pos h, if_neg (fun hx => h0 (h.trans hx)), if_pos h]
      · rw [if_neg h, if_neg h]

theorem installedOnly_insert (m : ResolverMap) (k : String) (e : DomainResolver)
    (hc : e.challenge_key.isSome = true) (hn : e.notifier.isSome = true) :
    InstalledOnly m (mapInsert m k e) := by
  intro d hne
  rw [mapGet_mapInsert] at hne ⊢
  by_cases h : d = k
  · rw [if_pos h]
    exact ⟨e, rfl, hc, hn⟩
  · rw [if_neg h] at hne
    exact absurd rfl hne

theorem download_certificate_map (env : Env) (url : String) (csr : Csr) (st : St) :
    ((download_certificate env url csr st).snd).map = st.map := by
  unfold download_certificate
  cases h : env.downloadHttp url <;> simp [h, emit]

theorem finalize_map_eq (env : Env) (self : LocatedOrder) (st : St) :
    ((finalize env self st).snd).map = st.map := by
  unfold finalize
  cases h : env.finalizeHttp st.finalizeCount with
  | none => simp [h, emit]
  | some status =>
    cases status <;> simp [h, emit, download_certificate_map]

theorem authorizeAll_map (env : Env) :
    ∀ (urls : List String) (st : St), ((authorizeAll env urls st).snd).map = st.map := by
  intro urls
  induction urls with
  | nil => intro st; rfl
  | cons u rest ih =>
    intro st
    unfold authorizeAll
    cases h : env.authorizeHttp u with
    | none => simp [h, emit]
    | some a =>
      cases hrec : authorizeAll env rest (emit st (.authorizeCall u)) with
      | mk o st2 =>
        have hm : st2.map = st.map := by
          have := ih (emit st (.authorizeCall u))
          rw [hrec] at this
          exact this
        cases o <;> simp [h, hrec, hm]

theorem pollGo_map_eq (env : Env) (self : LocatedOrder) :
    ∀ (delays : List Nat) (st : St), ((pollGo env self delays st).snd).map = st.map := by
  intro delays
  induction delays with
  | nil =>
    intro st
    unfold pollGo
    cases h : env.tryGetHttp st.tryGetCount with
    | none => simp [h, emit]
    | some status => cases status <;> simp [h, emit, finalize_map_eq]
  | cons dl rest ih =>
    intro st
    unfold pollGo
    cases h : env.tryGetHttp st.tryGetCount with
    | none => simp [h, emit]
    | some status =>
      cases status <;> simp [h, emit, finalize_map_eq, ih]

theorem pollOrder_map_eq (env : Env) (self : LocatedOrder) (delays : List Nat) (st : St) :
    ((pollOrder env self delays st).snd).map = st.map := by
  unfold pollOrder
  exact pollGo_map_eq env self delays.reverse st

theorem installChallenges_installedOnly (env : Env) (account : AccountMaterial)
    (domain_name : String) :
    ∀ (cs : List Challenge) (st : St) (pend : Nat),
      InstalledOnly st.map ((installChallenges env account domain_name cs st pend).2.1).map := by
  intro cs
  induction cs with
  | nil => intro st pend; exact installedOnly_refl _
  | cons c rest ih =>
    intro st pend
    cases hk : c.kind
    case tlsAlpn01 =>
      simp only [installChallenges, hk]
      cases hget : mapGet st.map domain_name with
      | none => exact installedOnly_refl _
      | some resolver =>
        cases hak : authorization_key c account with
        | none => exact installedOnly_refl _
        | some auth_key =>
          have hins :
              InstalledOnly st.map
                (mapInsert st.map domain_name
                  { key := resolver.key,
                    challenge_key := some (Challenge.certificate domain_name auth_key),
                    notifier := some () }) :=
            installedOnly_insert _ _ _ rfl rfl
          cases hacc : env.acceptHttp c.url with
          | none => simpa [emit] using hins
          | some status =>
            cases status
            case invalid => simpa [emit] using hins
            case valid =>
              exact installedOnly_trans hins (by simpa [emit] using ih _ pend)
            case processing =>
              exact installedOnly_trans hins (by simpa [emit] using ih _ (pend + 1))
            case pending =>
              exact installedOnly_trans hins (by simpa [emit] using ih _ (pend + 1))
    all_goals
      simpa [installChallenges, hk] using ih st pend

theorem installAuthorizations_installedOnly (env : Env) (account : AccountMaterial) :
    ∀ (auths : List Authorization) (st : St) (pend : Nat),
      InstalledOnly st.map ((installAuthorizations env account auths st pend).2.1).map := by
  intro auths
  induction auths with
  | nil => intro st pend; exact installedOnly_refl _
  | cons a rest ih =>
    intro st pend
    cases hid : a.identifier with
    | dns domain_name =>
      cases hstat : a.status
      case pending =>
        simp only [installAuthorizations, hid, hstat]
        cases hrec : installChallenges env account domain_name a.challenges st pend with
        | mk o p =>
          obtain ⟨st2, pend2⟩ := p
          have h1 : InstalledOnly st.map st2.map := by
            have := installChallenges_installedOnly env account domain_name a.challenges st pend
            rw [hrec] at this
            exact this
          cases o with
          | some r => exact h1
          | none => exact installedOnly_trans h1 (ih st2 pend2)
      all_goals
        simpa [installAuthorizations, hid, hstat] using ih st pend

theorem retry_installedOnly (env : Env) (account : AccountMaterial)
    (self : LocatedOrder) (csr : Option Csr) (st : St) :
    InstalledOnly st.map ((retry env account self csr st).snd).map := by
  rcases self with ⟨surl, ⟨ids, auths, fin, stat⟩⟩
  cases stat
  case invalid => exact installedOnly_refl _
  case ready => exact installedOnly_of_eq (finalize_map_eq env _ st)
  case valid cert =>
    cases csr with
    | some c => exact installedOnly_of_eq (download_certificate_map env cert c st)
    | none => exact installedOnly_refl _
  case processing =>
    cases csr with
    | some c => exact installedOnly_refl _
    | none => exact installedOnly_refl _
  case pending =>
    simp only [retry]
    cases hA : authorizeAll env auths st with
    | mk o st1 =>
      have hm1 : st1.map = st.map := by
        have := authorizeAll_map env auths st
        rw [hA] at this
        exact this
      cases o with
      | none => exact installedOnly_of_eq hm1
      | some l =>
        dsimp only
        cases hany : authFailed l with
        | true =>
          rw [if_pos rfl]
          exact installedOnly_of_eq hm1
        | false =>
          rw [if_neg (by simp)]
          cases hI : installAuthorizations env account l st1 0 with
          | mk o2 p2 =>
            obtain ⟨st2, pend2⟩ := p2
            have h12 : InstalledOnly st1.map st2.map := by
              have := installAuthorizations_installedOnly env account l st1 0
              rw [hI] at this
              exact this
            have hbase : InstalledOnly st.map st2.map := hm1 ▸ h12
            cases o2 with
            | some r =>
              dsimp only
              exact hbase
            | none =>
              dsimp only
              cases hw : waitChallenges env pend2 with
              | some r => exact hbase
              | none =>
                exact installedOnly_trans hbase
                  (installedOnly_of_eq (pollOrder_map_eq env _ _ st2))

theorem processGo_installedOnly (env : Env) (account : AccountMaterial)
    (self : LocatedOrder) :
    ∀ (delays : List Nat) (maybe_csr : Option Csr) (st : St),
      InstalledOnly st.map ((processGo env account self delays maybe_csr st).snd).map := by
  intro delays
  induction delays with
  | nil =>
    intro maybe_csr st
    rw [processGo.eq_def]
    dsimp only
    cases hr : retry env account self maybe_csr st with
    | mk r st2 =>
      have h2 : InstalledOnly st.map st2.map := by
        have := retry_installedOnly env account self maybe_csr st
        rw [hr] at this
        exact this
      cases r with
      | ok p => exact h2
      | panicked m => exact h2
      | err e => cases e <;> exact h2
  | cons dl rest ih =>
    intro maybe_csr st
    rw [processGo.eq_def]
    dsimp only
    cases hr : retry env account self maybe_csr st with
    | mk r st2 =>
      have h2 : InstalledOnly st.map st2.map := by
        have := retry_installedOnly env account self maybe_csr st
        rw [hr] at this
        exact this
      cases r with
      | ok p => exact h2
      | panicked m => exact h2
      | err e =>
        cases e
        case orderProcessing c =>
          exact installedOnly_trans h2 (ih (some c) st2)
        all_goals exact h2

theorem process_installedOnly (env : Env) (account : AccountMaterial)
    (self : LocatedOrder) (st : St) :
    InstalledOnly st.map ((process env account self st).snd).map := by
  unfold process
  exact processGo_installedOnly env account self _ none st

/-- C2 amended: `request_certificates` never reverts a resolver entry:
on every return (success, error, and even the modelled panic exits),
any entry of the resolver map that differs from its pre-call value is
an entry the call installed, with `challenge_key` and `notifier` still
present.  The claimed removal does not exist in the code. -/
theorem C2_installed_entries_not_removed (env : Env) (account : AccountMaterial)
    (st : St) (d : String)
    (hchanged :
      mapGet (request_certificates env account st).snd.map d ≠ mapGet st.map d) :
    ∃ e, mapGet (request_certificates env account st).snd.map d = some e
      ∧ e.challenge_key.isSome = true ∧ e.notifier.isSome = true := by
  have h : InstalledOnly st.map (request_certificates env account st).snd.map := by
    unfold request_certificates
    cases hno : env.newOrderHttp with
    | none => exact installedOnly_refl _
    | some located =>
      exact process_installedOnly env account
        { url := located.fst, order := located.snd } (emit st .newOrderCall)
  exact h d hchanged

/-- Witness for C2_installed_entries_not_removed at the concrete
counterexample run. -/
theorem C2_installed_entries_not_removed_witness :
    ∃ e, mapGet (request_certificates c2Env fixtureAccount c2St).snd.map "a.test" = some e
      ∧ e.challenge_key.isSome = true ∧ e.notifier.isSome = true :=
  C2_installed_entries_not_removed c2Env fixtureAccount c2St "a.test" (by decide)

/-! ## Account lookup dispatch (src/account.rs)

`AccountMaterial::from_json` first restores the stored
`{pkcs8, url}` pair and then verifies the account with an
`onlyReturnExisting` POST; the claim under test (C7) is about the
dispatch on that response's HTTP status, which is modelled here from
the restored account onward.  The nested requests (`update_contact`,
`new_account`) get their own injected responses; each returned pair
carries the list of nested operations invoked. -/

/-- Model of `AccountStatus` (src/account.rs lines 43-52). -/
inductive AccountStatus where
  | valid
  | deactivated
  | revoked
deriving DecidableEq

/-- Injected response for `update_contact` (src/account.rs lines
213-254): transport failure, non-2xx response, unparsable body, or a
parsed account status. -/
inductive UpdateContactResp where
  | transportErr
  | httpFail
  | badBody
  | okBody (status : AccountStatus)
deriving DecidableEq

/-- Injected response for `new_account` (src/account.rs lines
321-369): transport failure, non-2xx response, or a 2xx response with
its optional `Location` header and optional parsed body. -/
inductive NewAccountResp where
  | transportErr
  | httpFail
  | okResp (location : Option String) (body : Option AccountStatus)
deriving DecidableEq

/-- Environment of the account lookup: the HTTP status and parsed body
of the `onlyReturnExisting` POST, plus the nested responses. -/
structure AccountEnv where
  lookupStatusCode : Nat
  lookupBody : Option AccountStatus
  updateContactResp : UpdateContactResp
  newAccountResp : NewAccountResp
deriving DecidableEq

/-- Nested account operations observable from `from_json`. -/
inductive AccountCall where
  | updateContact
  | newAccount
deriving DecidableEq

/-- Model of `AccountMaterial::update_contact` (src/account.rs lines
213-254).  Note the code wraps a body that fails to parse in
`ErrorKind::NewAccount` (line 239) while all other failures are
`ErrorKind::GetAccount`. -/
def update_contact (env : AccountEnv) : Except ErrorKind Unit :=
  match env.updateContactResp with
  | .transportErr => .error .getAccount
  | .httpFail => .error .getAccount
  | .badBody => .error .newAccount
  | .okBody status =>
    match status with
    | .valid => .ok ()
    | _ => .error .getAccount

/-- Model of `AccountMaterial::new_account` (src/account.rs lines
321-369): on success the `Location` header becomes the account url
(kid) and the supplied keypair and PKCS#8 bytes are reused. -/
def new_account (env : AccountEnv) (pkcs8 : List Nat) (publicKey : List Nat) :
    Except ErrorKind AccountMaterial :=
  match env.newAccountResp with
  | .transportErr => .error .newAccount
  | .httpFail => .error .newAccount
  | .okResp location body =>
    match location with
    | none => .error .newAccount
    | some kid =>
      match body with
      | none => .error .newAccount
      | some status =>
        match status with
        | .valid => .ok { publicKey := publicKey, pkcs8 := pkcs8, url := kid }
        | _ => .error .newAccount

/-- Model of the status dispatch of `AccountMaterial::from_json`
(src/account.rs lines 133-184); the Rust `match` arms are `200`,
`403`, `400 | 404` and a catch-all. -/
def from_json_lookup (env : AccountEnv) (account : AccountMaterial) :
    Except ErrorKind AccountMaterial × List AccountCall :=
  if env.lookupStatusCode = 200 then
    match env.lookupBody with
    | none => (.error .getAccount, [])
    | some status =>
      match status with
      | .valid =>
        (match update_contact env with
         | .ok _ => (.ok account, [.updateContact])
         | .error e => (.error e, [.updateContact]))
      | _ => (.error .getAccount, [])
  else if env.lookupStatusCode = 403 then
    (match update_contact env with
     | .ok _ => (.ok account, [.updateContact])
     | .error e => (.error e, [.updateContact]))
  else if env.lookupStatusCode = 400 ∨ env.lookupStatusCode = 404 then
    (new_account env account.pkcs8 account.publicKey, [.newAccount])
  else
    (.error .getAccount, [])

/-- The C7 sentence, written as the claim states it: 400 or 404 mint a
new account reusing the deserialized keypair; 403 re-agrees to terms
via `update_contact`; 200 requires a valid account status and then
calls `update_contact`; every other status fails with `GetAccount`. -/
def from_json_claim (env : AccountEnv) (account : AccountMaterial) :
    Except ErrorKind AccountMaterial × List AccountCall :=
  if env.lookupStatusCode = 400 ∨ env.lookupStatusCode = 404 then
    (new_account env account.pkcs8 account.publicKey, [.newAccount])
  else if env.lookupStatusCode = 403 then
    (match update_contact env with
     | .ok _ => (.ok account, [.updateContact])
     | .error e => (.error e, [.updateContact]))
  else if env.lookupStatusCode = 200 then
    match env.lookupBody with
    | some .valid =>
      (match update_contact env with
       | .ok _ => (.ok account, [.updateContact])
       | .error e => (.error e, [.updateContact]))
    | some _ => (.error .getAccount, [])
    | none => (.error .getAccount, [])
  else
    (.error .getAccount, [])

/-- C7: the account-lookup dispatch of `from_json` agrees with the
claim's case analysis on every response and every restored account. -/
theorem C7_from_json_dispatch (env : AccountEnv) (account : AccountMaterial) :
    from_json_lookup env account = from_json_claim env account := by
  rcases env with ⟨code, body, uc, na⟩
  unfold from_json_lookup from_json_claim
  dsimp only
  by_cases h200 : code = 200
  · subst h200
    norm_num
    cases body with
    | none => rfl
    | some status => cases status <;> rfl
  · by_cases h403 : code = 403
    · subst h403
      norm_num
    · by_cases h4 : code = 400 ∨ code = 404
      · have hne : ¬(code = 403) := h403
        rcases h4 with h | h <;> subst h <;> norm_num
      · simp [h200, h403, h4]
